import Mathlib

/-!
Verification of the task-queue core of the whisperx-stt-diarization service.

The embedding below models `src/app/services/task_queue.py` together with the
data model of `src/app/models.py` and the delete route of
`src/app/routes/transcribe.py`.  Python dictionaries (`OrderedDict` /` dict`)
are modelled as association lists in insertion order; `datetime` values are
modelled as rationals (seconds); Python floats are modelled as rationals.
The asyncio semaphore that bounds concurrency is modelled as a labelled
transition system (`SemState` / `SemStep`), and the body of `process_task`
is modelled as a function parameterised by the pipeline's behaviour: the
list of progress-callback events it delivers and its final outcome
(`Except` value: a result or a raised fault).
-/

namespace WhisperXQueue

/-- Status enumeration of `src/app/models.py` (`TaskStatus`): `PENDING`,
`PROCESSING`, `TRANSCRIBING`, `ALIGNING`, `DIARIZING`, `COMPLETED`, `FAILED`. -/
inductive TaskStatus where
  | pending
  | processing
  | transcribing
  | aligning
  | diarizing
  | completed
  | failed
deriving DecidableEq, Repr

/-- The terminal statuses, written `status in (TaskStatus.COMPLETED, TaskStatus.FAILED)`
in the Python source. -/
def TaskStatus.isTerminal : TaskStatus → Bool
  | .completed => true
  | .failed => true
  | _ => false

/-- Model of `TranscriptionOptions` from `src/app/models.py`. -/
structure TranscriptionOptions where
  language : Option String := none
  min_speakers : Option Nat := none
  max_speakers : Option Nat := none
  enable_diarization : Bool := true
  return_char_alignments : Bool := false
deriving DecidableEq, Repr

/-- Model of `WordSegment` from `src/app/models.py`; float fields modelled as rationals. -/
structure WordSegment where
  word : String
  start : ℚ
  «end» : ℚ
  score : Option ℚ := none
  speaker : Option String := none
deriving DecidableEq, Repr

/-- Model of `TranscriptSegment` from `src/app/models.py`. -/
structure TranscriptSegment where
  start : ℚ
  «end» : ℚ
  text : String
  speaker : Option String := none
  words : Option (List WordSegment) := none
deriving DecidableEq, Repr

/-- Model of `TranscriptionResult` from `src/app/models.py`. -/
structure TranscriptionResult where
  language : String
  segments : List TranscriptSegment
  word_segments : Option (List WordSegment) := none
deriving DecidableEq, Repr

/-- Model of `TaskProgress` from `src/app/models.py`.  Here `created_at`, `started_at` and
`completed_at` are `datetime` values, modelled as rational timestamps.  The
fields `audio_path` and `options` model the ad hoc attributes `_audio_path`
and `_options` that `create_task` attaches to the record; `getattr` with a
`None` default makes them `Option`-valued. -/
structure TaskProgress where
  task_id : String
  status : TaskStatus
  progress : ℚ := 0
  message : String := ""
  created_at : ℚ
  started_at : Option ℚ := none
  completed_at : Option ℚ := none
  error : Option String := none
  result : Option TranscriptionResult := none
  audio_path : Option String := none
  options : Option TranscriptionOptions := none
deriving DecidableEq, Repr

/-- The shared state of `TaskQueue` (`src/app/services/task_queue.py`):
`self._tasks` (an `OrderedDict`) and `self._task_results` (a `dict`), both
modelled as association lists in insertion order with unique keys. -/
structure TaskQueue where
  tasks : List (String × TaskProgress) := []
  task_results : List (String × TranscriptionResult) := []
deriving DecidableEq, Repr

/-- Dictionary read `d.get(k)`: first binding of the key, if any. -/
def lookupA {β : Type} : List (String × β) → String → Option β
  | [], _ => none
  | p :: rest, k => if p.1 = k then some p.2 else lookupA rest k

/-- In-place mutation of the value bound to a present key. -/
def updateA {β : Type} (l : List (String × β)) (k : String) (f : β → β) :
    List (String × β) :=
  l.map fun p => if p.1 = k then (p.1, f p.2) else p

/-- Dictionary assignment `d[k] = v`: replace in place when the key is
present, append otherwise. -/
def setA {β : Type} (l : List (String × β)) (k : String) (v : β) :
    List (String × β) :=
  if (lookupA l k).isSome then updateA l k (fun _ => v) else l ++ [(k, v)]

/-- Dictionary deletion `del d[k]` (also covering the no-op when absent). -/
def eraseA {β : Type} (l : List (String × β)) (k : String) : List (String × β) :=
  l.filter fun p => decide (p.1 ≠ k)

/-- Model of `TaskQueue.create_task`: insert a fresh `PENDING` record with progress 0,
message "Task queued", `created_at` the current time, and the audio path and
options stashed on the record.  The fresh UUID and the current time are
explicit parameters. -/
def createTask (q : TaskQueue) (task_id : String) (now : ℚ)
    (audio_path : String) (options : TranscriptionOptions) : TaskQueue :=
  let record : TaskProgress :=
    { task_id := task_id
      status := .pending
      progress := 0
      message := "Task queued"
      created_at := now
      audio_path := some audio_path
      options := some options }
  { q with tasks := setA q.tasks task_id record }

/-- Model of `TaskQueue.get_task`: read the record; when a stored result exists for
the id, join it into the returned record's `result` field. -/
def getTask (q : TaskQueue) (task_id : String) : Option TaskProgress :=
  match lookupA q.tasks task_id with
  | none => none
  | some t =>
    match lookupA q.task_results task_id with
    | none => some t
    | some r => some { t with result := some r }

/-- The field mutations performed by `TaskQueue.update_task` on a present
record, in source order: the status branch (which also maintains
`started_at` / `completed_at`), then progress, message and error. -/
def applyUpdate (t : TaskProgress) (now : ℚ) (status : Option TaskStatus)
    (progress : Option ℚ) (message : Option String) (error : Option String) :
    TaskProgress :=
  let t :=
    match status with
    | none => t
    | some s =>
      let t := { t with status := s }
      if s = .processing ∧ t.started_at = none then
        { t with started_at := some now }
      else if s = .completed ∨ s = .failed then
        { t with completed_at := some now }
      else t
  let t := match progress with | none => t | some p => { t with progress := p }
  let t := match message with | none => t | some m => { t with message := m }
  match error with | none => t | some e => { t with error := e }

/-- Model of `TaskQueue.update_task`: no-op when the id is unknown, otherwise mutate
the record in place via `applyUpdate`. -/
def updateTask (q : TaskQueue) (task_id : String) (now : ℚ)
    (status : Option TaskStatus) (progress : Option ℚ)
    (message : Option String) (error : Option String) : TaskQueue :=
  match lookupA q.tasks task_id with
  | none => q
  | some _ =>
    let f : TaskProgress → TaskProgress :=
      fun t => applyUpdate t now status progress message error
    { q with tasks := updateA q.tasks task_id f }

/-- Model of `TaskQueue.set_result`: unconditional dictionary assignment into
`self._task_results` — there is no check that the record still exists. -/
def setResult (q : TaskQueue) (task_id : String) (r : TranscriptionResult) :
    TaskQueue :=
  { q with task_results := setA q.task_results task_id r }

/-- The counts returned by `TaskQueue.get_stats`. -/
structure Stats where
  pending : Nat
  processing : Nat
  completed : Nat
  failed : Nat
  total : Nat
deriving DecidableEq, Repr

/-- Model of `TaskQueue.get_stats`: recount the records by status; the processing
bucket covers `PROCESSING`, `TRANSCRIBING`, `ALIGNING` and `DIARIZING`;
`total` is the number of records. -/
def getStats (q : TaskQueue) : Stats :=
  { pending := q.tasks.countP fun p => decide (p.2.status = .pending)
    processing := q.tasks.countP fun p => decide
      (p.2.status = .processing ∨ p.2.status = .transcribing ∨
        p.2.status = .aligning ∨ p.2.status = .diarizing)
    completed := q.tasks.countP fun p => decide (p.2.status = .completed)
    failed := q.tasks.countP fun p => decide (p.2.status = .failed)
    total := q.tasks.length }

/-- The static stage table of the `progress_callback` closure inside
`TaskQueue.process_task` (`status_map`, with `.get(status, PROCESSING)` as
the fallback for unrecognised stage names). -/
def statusMap (stage : String) : TaskStatus :=
  if stage = "loading_audio" then .processing
  else if stage = "transcribing" then .transcribing
  else if stage = "aligning" then .aligning
  else if stage = "diarizing" then .diarizing
  else if stage = "processing" then .processing
  else if stage = "completed" then .processing
  else .processing

/-- One delivery of the pipeline's progress callback: the
`update_task` call made by `progress_callback(stage, progress)`. -/
def applyEvent (q : TaskQueue) (task_id : String) (now : ℚ)
    (ev : String × ℚ) : TaskQueue :=
  updateTask q task_id now (some (statusMap ev.1)) (some ev.2)
    (some ("Status: " ++ ev.1)) none

/-- The progress-callback deliveries made during the pipeline call, in the
order the pipeline issues them. -/
def applyEvents (q : TaskQueue) (task_id : String) (now : ℚ)
    (events : List (String × ℚ)) : TaskQueue :=
  events.foldl (fun q ev => applyEvent q task_id now ev) q

/-- Scheduler state: the shared `TaskQueue` store together with the current
value of the admission semaphore's counter (free slots). -/
structure SchedState where
  queue : TaskQueue
  avail : Nat
deriving DecidableEq, Repr

/-- Model of `TaskQueue.process_task`, sequentialised for one job: the pipeline's
behaviour is the list of progress-callback events it delivers followed by
its outcome (`Except.ok r` when `service.transcribe` returns `r`,
`Except.error e` when it raises a fault described by `e`).

Control flow mirrors the source: acquire a slot (`async with self._semaphore`
decrements the counter; the step relation `SemStep` models that acquisition
blocks while no slot is free); inside `try:` read the record (early return if
missing — Python's falsy test on the record is a `None` test, records being
truthy), fail when the audio path is falsy (`None` or empty), otherwise mark
`PROCESSING`, apply the callback events, then on success `set_result` and
mark `COMPLETED`, and in the `except` clause mark `FAILED` with `str(e)`;
the `finally` clause (slot release) runs on every path, so the function
always returns a state with the counter restored, and no fault propagates
(the function is total). -/
def processTask (st : SchedState) (task_id : String) (now : ℚ)
    (events : List (String × ℚ))
    (outcome : Except String TranscriptionResult) : SchedState :=
  let avail := st.avail - 1
  let q := st.queue
  let q :=
    match lookupA q.tasks task_id with
    | none => q
    | some task =>
      match task.audio_path with
      | none =>
        updateTask q task_id now (some .failed) none none
          (some "Audio path not found")
      | some path =>
        if path = "" then
          updateTask q task_id now (some .failed) none none
            (some "Audio path not found")
        else
          let q := updateTask q task_id now (some .processing) (some 0)
            (some "Starting transcription") none
          let q := applyEvents q task_id now events
          match outcome with
          | .ok r =>
            let q := setResult q task_id r
            updateTask q task_id now (some .completed) (some 100)
              (some "Transcription completed successfully") none
          | .error e =>
            updateTask q task_id now (some .failed) none
              (some "Transcription failed") (some e)
  { queue := q, avail := avail + 1 }

/-- One job's interaction with the scheduler: its id, the wall-clock time of
its execution, and the pipeline behaviour it observes. -/
structure JobRun where
  id : String
  now : ℚ
  events : List (String × ℚ)
  outcome : Except String TranscriptionResult
deriving Repr

/-- Sequential execution of a batch of submitted jobs. -/
def runJobs (st : SchedState) (jobs : List JobRun) : SchedState :=
  jobs.foldl (fun st j => processTask st j.id j.now j.events j.outcome) st

/-- The age test of `TaskQueue.cleanup_old_tasks`:
`(cutoff - task.created_at).total_seconds() / 3600 > max_age_hours`
conjoined with the terminal-status test. -/
def isOldTerminal (now maxAgeHours : ℚ) (t : TaskProgress) : Bool :=
  decide ((now - t.created_at) / 3600 > maxAgeHours) && t.status.isTerminal

/-- The `old_tasks` list collected by `TaskQueue.cleanup_old_tasks`: the ids
of the terminal records older than `max_age_hours`. -/
def oldTaskIds (q : TaskQueue) (now maxAgeHours : ℚ) : List String :=
  (q.tasks.filter fun p => isOldTerminal now maxAgeHours p.2).map fun p => p.1

/-- Model of `TaskQueue.cleanup_old_tasks`: collect the ids of terminal records older
than `max_age_hours`, then delete each collected id from the record map and
(when present) from the result map. -/
def cleanupOldTasks (q : TaskQueue) (now maxAgeHours : ℚ) : TaskQueue :=
  { tasks := q.tasks.filter fun p => decide (p.1 ∉ oldTaskIds q now maxAgeHours)
    task_results :=
      q.task_results.filter fun p => decide (p.1 ∉ oldTaskIds q now maxAgeHours) }

/-- Boundary result of the delete route (`delete_task` in
`src/app/routes/transcribe.py`): the 404 `HTTPException` raised for an
unknown id is the HTTP not-found response, modelled as a returned value. -/
inductive DeleteResult where
  | notFound
  | ok
deriving DecidableEq, Repr

/-- Model of `delete_task` from `src/app/routes/transcribe.py`, restricted to its
effect on the store: look the task up; answer not-found when absent;
otherwise delete the record and any stored result and answer ok.  (The
best-effort removal of the audio file is an external side effect outside
the store.) -/
def deleteTask (q : TaskQueue) (task_id : String) : DeleteResult × TaskQueue :=
  match getTask q task_id with
  | none => (.notFound, q)
  | some _ =>
    (.ok, { tasks := eraseA q.tasks task_id
            task_results := eraseA q.task_results task_id })

/-- State of the admission semaphore (`asyncio.Semaphore(MAX_CONCURRENT_TASKS)`,
line 38 of `task_queue.py`): the free-slot counter together with the list of
executions currently inside the `async with` body (mirrored by
`self._running_tasks`). -/
structure SemState where
  avail : Nat
  running : List String
deriving DecidableEq, Repr

/-- Atomic transitions of the admission semaphore.  `acquire` is enabled
only when a slot is free (`0 < avail`) — an execution whose acquisition is
not enabled is waiting, exactly the `async with self._semaphore` suspension;
`release` is the unconditional release performed when the body exits. -/
inductive SemStep : SemState → SemState → Prop where
  | acquire (s : SemState) (id : String) (hpos : 0 < s.avail) :
      SemStep s { avail := s.avail - 1, running := id :: s.running }
  | release (s : SemState) (id : String) (hmem : id ∈ s.running) :
      SemStep s { avail := s.avail + 1, running := s.running.erase id }

/-- States reachable from the freshly constructed semaphore of capacity `C`
(all slots free, nothing running). -/
inductive SemReachable (C : Nat) : SemState → Prop where
  | init : SemReachable C { avail := C, running := [] }
  | step {s s' : SemState} : SemReachable C s → SemStep s s' → SemReachable C s'

/-! ### Concrete states used for evaluation -/

/-- A concrete pipeline result value. -/
def sampleResult : TranscriptionResult :=
  { language := "en", segments := [] }

/-- A concrete fresh record, exactly as `create_task` builds it. -/
def sampleFresh : TaskProgress :=
  { task_id := "job-a", status := .pending, progress := 0,
    message := "Task queued", created_at := 0,
    audio_path := some "audio.wav", options := some {} }

/-- A store holding the single fresh record `sampleFresh`. -/
def sampleQueue : TaskQueue :=
  { tasks := [("job-a", sampleFresh)], task_results := [] }

/-- A concrete record already in the terminal `COMPLETED` state. -/
def doneTask5 : TaskProgress :=
  { task_id := "d", status := .completed, progress := 100, message := "done",
    created_at := 0, started_at := some 1, completed_at := some 2 }

/-- A store holding the single completed record `doneTask5`. -/
def queue5 : TaskQueue :=
  { tasks := [("d", doneTask5)], task_results := [] }

/-- A concrete record whose execution is in flight (`PROCESSING`). -/
def runningTask7 : TaskProgress :=
  { task_id := "g", status := .processing, created_at := 0,
    started_at := some 1, audio_path := some "g.wav" }

/-- A store holding the single running record `runningTask7`. -/
def queue7 : TaskQueue :=
  { tasks := [("g", runningTask7)], task_results := [] }

/-- A concrete pending record. -/
def pendingTask9 : TaskProgress :=
  { task_id := "b", status := .pending, created_at := 0 }

/-- A store holding the single pending record `pendingTask9`. -/
def queue9 : TaskQueue :=
  { tasks := [("b", pendingTask9)], task_results := [] }

/-- A terminal record created at time 0. -/
def oldDoneTask : TaskProgress :=
  { task_id := "old", status := .completed, created_at := 0 }

/-- A non-terminal record created at time 0. -/
def youngPendingTask : TaskProgress :=
  { task_id := "new", status := .pending, created_at := 0 }

/-- A store holding one terminal and one pending record. -/
def cleanupQueue : TaskQueue :=
  { tasks := [("old", oldDoneTask), ("new", youngPendingTask)],
    task_results := [] }

/-! ### Association-list lemmas -/

theorem lookupA_updateA {β : Type} (l : List (String × β)) (k : String)
    (f : β → β) (k' : String) :
    lookupA (updateA l k f) k' =
      if k' = k then (lookupA l k').map f else lookupA l k' := by
  induction l with
  | nil => by_cases hk : k' = k <;> simp [lookupA, updateA, hk]
  | cons p rest ih =>
    by_cases hpk : p.1 = k <;> by_cases hk : k' = k <;>
      by_cases hpk' : p.1 = k' <;>
        simp_all [lookupA, updateA]

theorem lookupA_append_some {β : Type} {l₁ : List (String × β)}
    (l₂ : List (String × β)) {k : String} {v : β} (h : lookupA l₁ k = some v) :
    lookupA (l₁ ++ l₂) k = some v := by
  induction l₁ with
  | nil => simp [lookupA] at h
  | cons p rest ih =>
    by_cases hpk : p.1 = k <;> simp_all [lookupA]

theorem lookupA_append_none {β : Type} {l₁ : List (String × β)}
    (l₂ : List (String × β)) {k : String} (h : lookupA l₁ k = none) :
    lookupA (l₁ ++ l₂) k = lookupA l₂ k := by
  induction l₁ with
  | nil => simp [lookupA]
  | cons p rest ih =>
    by_cases hpk : p.1 = k <;> simp_all [lookupA]

theorem lookupA_setA {β : Type} (l : List (String × β)) (k : String) (v : β)
    (k' : String) :
    lookupA (setA l k v) k' = if k' = k then some v else lookupA l k' := by
  unfold setA
  by_cases h : (lookupA l k).isSome
  · rw [if_pos h, lookupA_updateA]
    by_cases hk : k' = k
    · subst hk
      obtain ⟨w, hw⟩ := Option.isSome_iff_exists.mp h
      simp [hw]
    · simp [hk]
  · rw [if_neg h]
    have hnone : lookupA l k = none := by
      cases hl : lookupA l k
      · rfl
      · rw [hl] at h; simp at h
    by_cases hk : k' = k
    · subst hk
      rw [lookupA_append_none _ hnone]
      simp [lookupA]
    · cases hl : lookupA l k' with
      | some w => rw [lookupA_append_some _ hl]; simp [hk]
      | none =>
        rw [lookupA_append_none _ hl]
        simp [lookupA, hk, Ne.symm hk]

theorem lookupA_eraseA {β : Type} (l : List (String × β)) (k k' : String) :
    lookupA (eraseA l k) k' = if k' = k then none else lookupA l k' := by
  induction l with
  | nil => by_cases hk : k' = k <;> simp [lookupA, eraseA, hk]
  | cons p rest ih =>
    by_cases hpk : p.1 = k <;> by_cases hk : k' = k <;>
      by_cases hpk' : p.1 = k' <;>
        simp_all [lookupA, eraseA, List.filter_cons]

theorem lookupA_filterKey {β : Type} (l : List (String × β))
    (g : String → Bool) (k : String) :
    lookupA (l.filter fun p => g p.1) k =
      if g k then lookupA l k else none := by
  induction l with
  | nil => cases hg : g k <;> simp [lookupA, hg]
  | cons p rest ih =>
    by_cases hpk : p.1 = k
    · subst hpk
      cases hg : g p.1 <;> simp_all [lookupA, List.filter_cons]
    · cases hg : g p.1 <;> cases hgk : g k <;>
        simp_all [lookupA, List.filter_cons]

theorem lookupA_mem {β : Type} {l : List (String × β)} {k : String} {v : β}
    (h : lookupA l k = some v) : (k, v) ∈ l := by
  induction l with
  | nil => simp [lookupA] at h
  | cons p rest ih =>
    obtain ⟨a, b⟩ := p
    by_cases hpk : a = k
    · rw [lookupA, if_pos hpk] at h
      simp only [Option.some.injEq] at h
      subst hpk
      subst h
      exact List.mem_cons_self _ _
    · rw [lookupA, if_neg hpk] at h
      exact List.mem_cons_of_mem _ (ih h)

theorem mem_lookupA {β : Type} {l : List (String × β)}
    (hnd : (l.map fun p => p.1).Nodup) {k : String} {v : β}
    (h : (k, v) ∈ l) : lookupA l k = some v := by
  induction l with
  | nil => cases h
  | cons p rest ih =>
    rw [List.map_cons, List.nodup_cons] at hnd
    rcases List.mem_cons.mp h with heq | hmem
    · rw [← heq, lookupA, if_pos rfl]
    · by_cases hpk : p.1 = k
      · exfalso
        apply hnd.1
        rw [hpk]
        exact List.mem_map.mpr ⟨(k, v), hmem, rfl⟩
      · rw [lookupA, if_neg hpk]
        exact ih hnd.2 hmem

theorem mem_keys_filter {l : List (String × TaskProgress)}
    (g : TaskProgress → Bool) (hnd : (l.map fun p => p.1).Nodup) (k : String) :
    (k ∈ (l.filter fun p => g p.2).map fun p => p.1) ↔
      ∃ t, lookupA l k = some t ∧ g t := by
  constructor
  · intro hk
    obtain ⟨p, hpf, hp1⟩ := List.mem_map.mp hk
    obtain ⟨hpl, hpg⟩ := List.mem_filter.mp hpf
    refine ⟨p.2, ?_, hpg⟩
    rw [← hp1]
    exact mem_lookupA hnd (by simpa using hpl)
  · rintro ⟨t, hl, hg⟩
    exact List.mem_map.mpr ⟨(k, t), List.mem_filter.mpr ⟨lookupA_mem hl, hg⟩, rfl⟩

/-! ### Store-operation lemmas -/

theorem updateTask_tasks_lookup (q : TaskQueue) (tid : String) (now : ℚ)
    (s : Option TaskStatus) (p : Option ℚ) (m : Option String)
    (e : Option String) (id : String) :
    lookupA (updateTask q tid now s p m e).tasks id =
      if id = tid then
        (lookupA q.tasks id).map fun t => applyUpdate t now s p m e
      else lookupA q.tasks id := by
  unfold updateTask
  cases h : lookupA q.tasks tid
  · by_cases hid : id = tid
    · subst hid; simp [h]
    · simp [hid]
  · simp only []
    rw [lookupA_updateA]

theorem updateTask_task_results (q : TaskQueue) (tid : String) (now : ℚ)
    (s : Option TaskStatus) (p : Option ℚ) (m : Option String)
    (e : Option String) :
    (updateTask q tid now s p m e).task_results = q.task_results := by
  unfold updateTask
  cases h : lookupA q.tasks tid <;> rfl

theorem setResult_tasks (q : TaskQueue) (id : String)
    (r : TranscriptionResult) : (setResult q id r).tasks = q.tasks := rfl

theorem setResult_results_lookup (q : TaskQueue) (id : String)
    (r : TranscriptionResult) (id' : String) :
    lookupA (setResult q id r).task_results id' =
      if id' = id then some r else lookupA q.task_results id' :=
  lookupA_setA q.task_results id r id'

/-! ### Field behaviour of `applyUpdate` -/

theorem applyUpdate_result (t : TaskProgress) (now : ℚ) (s : Option TaskStatus)
    (p : Option ℚ) (m : Option String) (e : Option String) :
    (applyUpdate t now s p m e).result = t.result := by
  unfold applyUpdate
  cases s <;> cases p <;> cases m <;> cases e <;>
    simp only [] <;> (try split_ifs) <;> rfl

theorem applyUpdate_error_none (t : TaskProgress) (now : ℚ)
    (s : Option TaskStatus) (p : Option ℚ) (m : Option String) :
    (applyUpdate t now s p m none).error = t.error := by
  unfold applyUpdate
  cases s <;> cases p <;> cases m <;>
    simp only [] <;> (try split_ifs) <;> rfl

theorem applyUpdate_error_some (t : TaskProgress) (now : ℚ)
    (s : Option TaskStatus) (p : Option ℚ) (m : Option String) (e : String) :
    (applyUpdate t now s p m (some e)).error = some e := by
  unfold applyUpdate
  cases s <;> cases p <;> cases m <;> simp only []

theorem applyUpdate_status_some (t : TaskProgress) (now : ℚ) (v : TaskStatus)
    (p : Option ℚ) (m : Option String) (e : Option String) :
    (applyUpdate t now (some v) p m e).status = v := by
  unfold applyUpdate
  cases p <;> cases m <;> cases e <;>
    simp only [] <;> (try split_ifs) <;> rfl

theorem applyUpdate_started_at_some (t : TaskProgress) (now : ℚ)
    (s : Option TaskStatus) (p : Option ℚ) (m : Option String)
    (e : Option String) (x : ℚ) (h : t.started_at = some x) :
    (applyUpdate t now s p m e).started_at = some x := by
  unfold applyUpdate
  cases s <;> cases p <;> cases m <;> cases e <;> simp only [] <;>
    (try split_ifs with h1 h2) <;> simp_all

theorem applyUpdate_started_at_processing (t : TaskProgress) (now : ℚ)
    (p : Option ℚ) (m : Option String) (e : Option String)
    (h : t.started_at = none) :
    (applyUpdate t now (some .processing) p m e).started_at = some now := by
  unfold applyUpdate
  cases p <;> cases m <;> cases e <;> simp only [] <;>
    (try split_ifs with h1 h2) <;> simp_all

theorem applyUpdate_completed_at_terminal (t : TaskProgress) (now : ℚ)
    (v : TaskStatus) (p : Option ℚ) (m : Option String) (e : Option String)
    (hv : v = .completed ∨ v = .failed) :
    (applyUpdate t now (some v) p m e).completed_at = some now := by
  unfold applyUpdate
  rcases hv with hv | hv <;> subst hv <;>
    cases p <;> cases m <;> cases e <;> simp only [] <;>
      (try split_ifs with h1 h2) <;> simp_all

/-! ### Behaviour of the progress-callback fold -/

theorem applyEvents_task_results (q : TaskQueue) (id : String) (now : ℚ)
    (events : List (String × ℚ)) :
    (applyEvents q id now events).task_results = q.task_results := by
  induction events generalizing q with
  | nil => rfl
  | cons ev evs ih =>
    show (applyEvents (applyEvent q id now ev) id now evs).task_results = _
    rw [ih]
    exact updateTask_task_results q id now _ _ _ _

theorem applyEvents_lookup (id : String) (now : ℚ)
    (events : List (String × ℚ)) (q : TaskQueue) (t : TaskProgress)
    (h : lookupA q.tasks id = some t) :
    ∃ t', lookupA (applyEvents q id now events).tasks id = some t' ∧
      t'.error = t.error ∧ t'.result = t.result := by
  induction events generalizing q t with
  | nil => exact ⟨t, h, rfl, rfl⟩
  | cons ev evs ih =>
    have h1 : lookupA (applyEvent q id now ev).tasks id =
        some (applyUpdate t now (some (statusMap ev.1)) (some ev.2)
          (some ("Status: " ++ ev.1)) none) := by
      unfold applyEvent
      rw [updateTask_tasks_lookup, if_pos rfl, h]
      rfl
    obtain ⟨t', ht', he, hr⟩ := ih _ _ h1
    refine ⟨t', ht', ?_, ?_⟩
    · rw [he, applyUpdate_error_none]
    · rw [hr, applyUpdate_result]

/-! ### Control-flow shapes of `process_task` -/

theorem processTask_avail (st : SchedState) (id : String) (now : ℚ)
    (events : List (String × ℚ)) (outcome : Except String TranscriptionResult) :
    (processTask st id now events outcome).avail = st.avail - 1 + 1 := rfl

theorem processTask_queue_missing (st : SchedState) (id : String) (now : ℚ)
    (events : List (String × ℚ)) (outcome : Except String TranscriptionResult)
    (h : lookupA st.queue.tasks id = none) :
    (processTask st id now events outcome).queue = st.queue := by
  simp only [processTask]
  rw [h]

theorem processTask_queue_no_path (st : SchedState) (id : String) (now : ℚ)
    (events : List (String × ℚ)) (outcome : Except String TranscriptionResult)
    (t : TaskProgress) (ht : lookupA st.queue.tasks id = some t)
    (hpath : t.audio_path = none) :
    (processTask st id now events outcome).queue =
      updateTask st.queue id now (some .failed) none none
        (some "Audio path not found") := by
  simp only [processTask]
  rw [ht]
  simp [hpath]

theorem processTask_queue_empty_path (st : SchedState) (id : String) (now : ℚ)
    (events : List (String × ℚ)) (outcome : Except String TranscriptionResult)
    (t : TaskProgress) (ht : lookupA st.queue.tasks id = some t)
    (hpath : t.audio_path = some "") :
    (processTask st id now events outcome).queue =
      updateTask st.queue id now (some .failed) none none
        (some "Audio path not found") := by
  simp only [processTask]
  rw [ht]
  simp [hpath]

theorem processTask_queue_ok (st : SchedState) (id : String) (now : ℚ)
    (events : List (String × ℚ)) (r : TranscriptionResult) (t : TaskProgress)
    (path : String) (ht : lookupA st.queue.tasks id = some t)
    (hpath : t.audio_path = some path) (hne : path ≠ "") :
    (processTask st id now events (Except.ok r)).queue =
      updateTask
        (setResult
          (applyEvents
            (updateTask st.queue id now (some .processing) (some 0)
              (some "Starting transcription") none) id now events) id r)
        id now (some .completed) (some 100)
        (some "Transcription completed successfully") none := by
  simp only [processTask]
  rw [ht]
  simp [hpath, hne]

theorem processTask_queue_error (st : SchedState) (id : String) (now : ℚ)
    (events : List (String × ℚ)) (e : String) (t : TaskProgress)
    (path : String) (ht : lookupA st.queue.tasks id = some t)
    (hpath : t.audio_path = some path) (hne : path ≠ "") :
    (processTask st id now events (Except.error e)).queue =
      updateTask
        (applyEvents
          (updateTask st.queue id now (some .processing) (some 0)
            (some "Starting transcription") none) id now events)
        id now (some .failed) none (some "Transcription failed") (some e) := by
  simp only [processTask]
  rw [ht]
  simp [hpath, hne]

/-! ### The admission-semaphore invariant -/

theorem semReachable_invariant {C : Nat} {s : SemState}
    (h : SemReachable C s) : s.avail + s.running.length = C := by
  induction h with
  | init => simp
  | step hr hs ih =>
    cases hs with
    | acquire id hpos =>
      simp only [List.length_cons]
      omega
    | release id hmem =>
      have hlen := List.length_erase_of_mem hmem
      have hpos := List.length_pos_of_mem hmem
      simp only [hlen]
      omega

/-! ### `get_task` and counting lemmas -/

theorem getTask_of_missing (q : TaskQueue) (task_id : String)
    (h : lookupA q.tasks task_id = none) : getTask q task_id = none := by
  unfold getTask
  rw [h]

theorem getTask_of_no_result (q : TaskQueue) (task_id : String)
    (t : TaskProgress) (h1 : lookupA q.tasks task_id = some t)
    (h2 : lookupA q.task_results task_id = none) :
    getTask q task_id = some t := by
  unfold getTask
  rw [h1, h2]

theorem getTask_of_result (q : TaskQueue) (task_id : String)
    (t : TaskProgress) (r : TranscriptionResult)
    (h1 : lookupA q.tasks task_id = some t)
    (h2 : lookupA q.task_results task_id = some r) :
    getTask q task_id = some { t with result := some r } := by
  unfold getTask
  rw [h1, h2]

theorem countP_status_partition (l : List (String × TaskProgress)) :
    l.countP (fun p => decide (p.2.status = .pending)) +
      l.countP (fun p => decide
        (p.2.status = .processing ∨ p.2.status = .transcribing ∨
          p.2.status = .aligning ∨ p.2.status = .diarizing)) +
      l.countP (fun p => decide (p.2.status = .completed)) +
      l.countP (fun p => decide (p.2.status = .failed)) = l.length := by
  induction l with
  | nil => rfl
  | cons p rest ih =>
    rw [List.countP_cons, List.countP_cons, List.countP_cons, List.countP_cons,
      List.length_cons]
    cases h : p.2.status <;> simp [h] at ih ⊢ <;> omega

/-! ## The claims -/

/-- Claim C1: for any configured capacity C ≥ 1 and any reachable state of
the admission semaphore, at most C jobs are inside the admission-controlled
pipeline body — the Running(*) phase of active execution — simultaneously;
an execution whose acquisition is not enabled (no free slot) waits, since
`SemStep.acquire` requires `0 < avail`. -/
theorem concurrent_executions_bounded (C : Nat) (s : SemState) (hC : 1 ≤ C)
    (h : SemReachable C s) : s.running.length ≤ C := by
  have hinv := semReachable_invariant h
  omega

/-- Witness for C1: with capacity 1, the state reached by one acquisition
has exactly one execution in flight, within the bound. -/
theorem concurrent_executions_bounded_witness :
    (SemState.mk 0 ["job-a"]).running.length ≤ 1 :=
  concurrent_executions_bounded 1 (SemState.mk 0 ["job-a"]) (by decide)
    (SemReachable.step SemReachable.init
      (SemStep.acquire (SemState.mk 1 []) "job-a" (by decide)))

/-- Claim C2: every execution of `process_task` restores the admission
counter it decremented — the release in the `finally`-equivalent position
runs on success, failure, and every other control path — so the counter is
conserved: after any batch of N jobs has been fully processed starting from
capacity C, the number of free slots is again C, in particular when the
pipeline faults on every call. -/
theorem admission_slots_conserved :
    (∀ (st : SchedState) (id : String) (now : ℚ)
        (events : List (String × ℚ))
        (outcome : Except String TranscriptionResult),
      1 ≤ st.avail → (processTask st id now events outcome).avail = st.avail) ∧
    (∀ (C : Nat) (q : TaskQueue) (jobs : List JobRun),
      1 ≤ C → (runJobs (SchedState.mk q C) jobs).avail = C) := by
  have single : ∀ (st : SchedState) (id : String) (now : ℚ)
      (events : List (String × ℚ))
      (outcome : Except String TranscriptionResult),
      1 ≤ st.avail → (processTask st id now events outcome).avail = st.avail := by
    intro st id now events outcome h
    rw [processTask_avail]
    omega
  refine ⟨single, ?_⟩
  intro C q jobs hC
  suffices hgen : ∀ (st : SchedState), st.avail = C → (runJobs st jobs).avail = C by
    exact hgen (SchedState.mk q C) rfl
  induction jobs with
  | nil => intro st hst; exact hst
  | cons j js ih =>
    intro st hst
    show (runJobs (processTask st j.id j.now j.events j.outcome) js).avail = C
    apply ih
    rw [single st j.id j.now j.events j.outcome (by omega)]
    exact hst

/-- Witness for C2: a pipeline fault on a capacity-2 scheduler leaves both
slots free, and a two-job batch (one fault, one success) ends with both
slots free. -/
theorem admission_slots_conserved_witness :
    (processTask (SchedState.mk sampleQueue 2) "job-a" 0 []
        (Except.error "boom")).avail = 2 ∧
    (runJobs (SchedState.mk sampleQueue 2)
        [JobRun.mk "job-a" 0 [] (Except.error "boom"),
         JobRun.mk "job-a" 1 [] (Except.ok sampleResult)]).avail = 2 :=
  ⟨admission_slots_conserved.1 (SchedState.mk sampleQueue 2) "job-a" 0 []
      (Except.error "boom") (by decide),
   admission_slots_conserved.2 2 sampleQueue
      [JobRun.mk "job-a" 0 [] (Except.error "boom"),
       JobRun.mk "job-a" 1 [] (Except.ok sampleResult)] (by decide)⟩

/-- Claim C6: on an unknown job id, `update_task` is a no-op leaving the
store completely unchanged (and, being total, raises nothing), and the
delete route answers not-found — the 404 response, modelled as the
`DeleteResult.notFound` value — without faulting and without touching the
store. -/
theorem unknown_id_noop (q : TaskQueue) (task_id : String)
    (h : lookupA q.tasks task_id = none) :
    (∀ (now : ℚ) (s : Option TaskStatus) (p : Option ℚ) (m : Option String)
        (e : Option String), updateTask q task_id now s p m e = q) ∧
    deleteTask q task_id = (DeleteResult.notFound, q) := by
  constructor
  · intro now s p m e
    unfold updateTask
    rw [h]
  · unfold deleteTask
    rw [getTask_of_missing q task_id h]

/-- Witness for C6: an update and a delete aimed at an id absent from the
empty store. -/
theorem unknown_id_noop_witness :
    updateTask {} "ghost" 0 (some .completed) (some 5) none none =
        ({} : TaskQueue) ∧
    deleteTask {} "ghost" = (DeleteResult.notFound, ({} : TaskQueue)) :=
  ⟨(unknown_id_noop {} "ghost" rfl).1 0 (some .completed) (some 5) none none,
   (unknown_id_noop {} "ghost" rfl).2⟩

/-- Claim C10: the counts returned by `get_stats` partition the store —
pending + processing + completed + failed equals the total number of
records — and each of the seven `TaskStatus` values is counted in exactly
one of the four buckets, the sub-phases `TRANSCRIBING`, `ALIGNING` and
`DIARIZING` under processing. -/
theorem stats_partition (q : TaskQueue) :
    (getStats q).pending + (getStats q).processing + (getStats q).completed +
        (getStats q).failed = (getStats q).total ∧
    (∀ s : TaskStatus,
      (if s = .pending then 1 else 0) +
        (if s = .processing ∨ s = .transcribing ∨ s = .aligning ∨
            s = .diarizing then 1 else 0) +
        (if s = .completed then 1 else 0) +
        (if s = .failed then 1 else 0) = 1) := by
  constructor
  · exact countP_status_partition q.tasks
  · intro s
    cases s <;> decide

/-- Claim C3: when the pipeline call raises a fault described by `e`, the
record is marked Failed with the fault description stored verbatim as
`error` and with `completed_at` set.  The except-branch of `processTask`
consumes the fault and the function is total, embedding the fact that
`process_task` itself never raises on a pipeline fault. -/
theorem pipeline_fault_marks_failed (st : SchedState) (task_id : String)
    (now : ℚ) (events : List (String × ℚ)) (e : String) (t : TaskProgress)
    (path : String) (ht : lookupA st.queue.tasks task_id = some t)
    (hpath : t.audio_path = some path) (hne : path ≠ "") :
    ∃ t', lookupA (processTask st task_id now events
        (Except.error e)).queue.tasks task_id = some t' ∧
      t'.status = .failed ∧ t'.error = some e ∧ t'.completed_at = some now := by
  rw [processTask_queue_error st task_id now events e t path ht hpath hne]
  have h1 : lookupA (updateTask st.queue task_id now (some .processing) (some 0)
      (some "Starting transcription") none).tasks task_id =
      some (applyUpdate t now (some .processing) (some 0)
        (some "Starting transcription") none) := by
    rw [updateTask_tasks_lookup, if_pos rfl, ht]
    rfl
  obtain ⟨t2, ht2, _, _⟩ := applyEvents_lookup task_id now events _ _ h1
  refine ⟨applyUpdate t2 now (some .failed) none (some "Transcription failed")
      (some e), ?_, ?_, ?_, ?_⟩
  · rw [updateTask_tasks_lookup, if_pos rfl, ht2]
    rfl
  · exact applyUpdate_status_some t2 now .failed none
      (some "Transcription failed") (some e)
  · exact applyUpdate_error_some t2 now (some .failed) none
      (some "Transcription failed") e
  · exact applyUpdate_completed_at_terminal t2 now .failed none
      (some "Transcription failed") (some e) (Or.inr rfl)

/-- Witness for C3: a concrete fault on the one-job store ends with the
record Failed, the fault text verbatim in `error`, and `completed_at` set. -/
theorem pipeline_fault_marks_failed_witness :
    ∃ t', lookupA (processTask (SchedState.mk sampleQueue 1) "job-a" 7
        [("transcribing", 10)] (Except.error "CUDA out of memory")).queue.tasks
        "job-a" = some t' ∧
      t'.status = .failed ∧ t'.error = some "CUDA out of memory" ∧
      t'.completed_at = some 7 :=
  pipeline_fault_marks_failed (SchedState.mk sampleQueue 1) "job-a" 7
    [("transcribing", 10)] "CUDA out of memory" sampleFresh "audio.wav"
    (by decide) (by decide) (by decide)

/-- Claim C4: a job whose record starts clean (no error, no stored result)
and then runs to completion through `process_task` ends in a terminal state
with exactly one of result/error set, consistent with the status: Completed
with the stored result joined in by `get_task` and no error, or Failed with
an error and no result. -/
theorem terminal_state_result_error (st : SchedState) (task_id : String)
    (now : ℚ) (events : List (String × ℚ))
    (outcome : Except String TranscriptionResult) (t : TaskProgress)
    (ht : lookupA st.queue.tasks task_id = some t)
    (herr : t.error = none) (hres : t.result = none)
    (hstore : lookupA st.queue.task_results task_id = none) :
    ∃ u, getTask (processTask st task_id now events outcome).queue task_id =
        some u ∧
      u.status.isTerminal = true ∧
      ((u.status = .completed ∧ u.result.isSome = true ∧ u.error = none) ∨
       (u.status = .failed ∧ u.error.isSome = true ∧ u.result = none)) := by
  have hfail : ∀ q' : TaskQueue,
      q' = updateTask st.queue task_id now (some .failed) none none
        (some "Audio path not found") →
      ∃ u, getTask q' task_id = some u ∧
        u.status.isTerminal = true ∧
        ((u.status = .completed ∧ u.result.isSome = true ∧ u.error = none) ∨
         (u.status = .failed ∧ u.error.isSome = true ∧ u.result = none)) := by
    intro q' hq'
    subst hq'
    have htasks : lookupA (updateTask st.queue task_id now (some .failed) none
        none (some "Audio path not found")).tasks task_id =
        some (applyUpdate t now (some .failed) none none
          (some "Audio path not found")) := by
      rw [updateTask_tasks_lookup, if_pos rfl, ht]
      rfl
    have hresults : lookupA (updateTask st.queue task_id now (some .failed)
        none none (some "Audio path not found")).task_results task_id = none := by
      rw [updateTask_task_results]
      exact hstore
    refine ⟨_, getTask_of_no_result _ _ _ htasks hresults, ?_, Or.inr ⟨?_, ?_, ?_⟩⟩
    · rw [applyUpdate_status_some]
      rfl
    · exact applyUpdate_status_some t now .failed none none
        (some "Audio path not found")
    · rw [applyUpdate_error_some]
      rfl
    · rw [applyUpdate_result]
      exact hres
  cases hopt : t.audio_path with
  | none =>
    rw [processTask_queue_no_path st task_id now events outcome t ht hopt]
    exact hfail _ rfl
  | some path =>
    by_cases hpe : path = ""
    · subst hpe
      rw [processTask_queue_empty_path st task_id now events outcome t ht hopt]
      exact hfail _ rfl
    · have h1 : lookupA (updateTask st.queue task_id now (some .processing)
          (some 0) (some "Starting transcription") none).tasks task_id =
          some (applyUpdate t now (some .processing) (some 0)
            (some "Starting transcription") none) := by
        rw [updateTask_tasks_lookup, if_pos rfl, ht]
        rfl
      obtain ⟨t2, ht2, he2, hr2⟩ := applyEvents_lookup task_id now events _ _ h1
      have he2' : t2.error = t.error := by
        rw [he2, applyUpdate_error_none]
      have hr2' : t2.result = t.result := by
        rw [hr2, applyUpdate_result]
      have hev_res : (applyEvents (updateTask st.queue task_id now
          (some .processing) (some 0) (some "Starting transcription") none)
          task_id now events).task_results = st.queue.task_results := by
        rw [applyEvents_task_results, updateTask_task_results]
      cases outcome with
      | ok r =>
        rw [processTask_queue_ok st task_id now events r t path ht hopt hpe]
        have htasks : lookupA (updateTask (setResult (applyEvents
            (updateTask st.queue task_id now (some .processing) (some 0)
              (some "Starting transcription") none) task_id now events)
            task_id r) task_id now (some .completed) (some 100)
            (some "Transcription completed successfully") none).tasks task_id =
            some (applyUpdate t2 now (some .completed) (some 100)
              (some "Transcription completed successfully") none) := by
          rw [updateTask_tasks_lookup, if_pos rfl, setResult_tasks, ht2]
          rfl
        have hresults : lookupA (updateTask (setResult (applyEvents
            (updateTask st.queue task_id now (some .processing) (some 0)
              (some "Starting transcription") none) task_id now events)
            task_id r) task_id now (some .completed) (some 100)
            (some "Transcription completed successfully") none).task_results
            task_id = some r := by
          rw [updateTask_task_results, setResult_results_lookup, if_pos rfl]
        refine ⟨_, getTask_of_result _ _ _ _ htasks hresults, ?_,
          Or.inl ⟨?_, ?_, ?_⟩⟩
        · show (applyUpdate t2 now (some .completed) (some 100)
            (some "Transcription completed successfully") none).status.isTerminal
              = true
          rw [applyUpdate_status_some]
          rfl
        · show (applyUpdate t2 now (some .completed) (some 100)
            (some "Transcription completed successfully") none).status = .completed
          exact applyUpdate_status_some t2 now .completed (some 100)
            (some "Transcription completed successfully") none
        · rfl
        · show (applyUpdate t2 now (some .completed) (some 100)
            (some "Transcription completed successfully") none).error = none
          rw [applyUpdate_error_none, he2', herr]
      | error e =>
        rw [processTask_queue_error st task_id now events e t path ht hopt hpe]
        have htasks : lookupA (updateTask (applyEvents
            (updateTask st.queue task_id now (some .processing) (some 0)
              (some "Starting transcription") none) task_id now events)
            task_id now (some .failed) none (some "Transcription failed")
            (some e)).tasks task_id =
            some (applyUpdate t2 now (some .failed) none
              (some "Transcription failed") (some e)) := by
          rw [updateTask_tasks_lookup, if_pos rfl, ht2]
          rfl
        have hresults : lookupA (updateTask (applyEvents
            (updateTask st.queue task_id now (some .processing) (some 0)
              (some "Starting transcription") none) task_id now events)
            task_id now (some .failed) none (some "Transcription failed")
            (some e)).task_results task_id = none := by
          rw [updateTask_task_results, hev_res]
          exact hstore
        refine ⟨_, getTask_of_no_result _ _ _ htasks hresults, ?_,
          Or.inr ⟨?_, ?_, ?_⟩⟩
        · rw [applyUpdate_status_some]
          rfl
        · exact applyUpdate_status_some t2 now .failed none
            (some "Transcription failed") (some e)
        · rw [applyUpdate_error_some]
          rfl
        · rw [applyUpdate_result, hr2', hres]

/-- Witness for C4: the fresh one-job store run once with a successful
pipeline outcome ends Completed with a joined result and no error. -/
theorem terminal_state_result_error_witness :
    ∃ u, getTask (processTask (SchedState.mk sampleQueue 1) "job-a" 3
        [("transcribing", 10)] (Except.ok sampleResult)).queue "job-a" =
        some u ∧
      u.status.isTerminal = true ∧
      ((u.status = .completed ∧ u.result.isSome = true ∧ u.error = none) ∨
       (u.status = .failed ∧ u.error.isSome = true ∧ u.result = none)) :=
  terminal_state_result_error (SchedState.mk sampleQueue 1) "job-a" 3
    [("transcribing", 10)] (Except.ok sampleResult) sampleFresh
    (by decide) (by decide) (by decide) (by decide)

/-- Claim C5, counterexample: `update_task` does not guard terminal
records — updating the Completed record `doneTask5` with a Pending status
changes its status field, so terminal records are not immutable under
further `update_task` calls. -/
theorem terminal_record_mutable_counterexample :
    (lookupA (updateTask queue5 "d" 3 (some .pending) none none none).tasks
        "d").map TaskProgress.status = some TaskStatus.pending ∧
    doneTask5.status = TaskStatus.completed := by
  decide

/-- Claim C5, amended: `update_task` applies its arguments to terminal
records like any others (immutability of terminal records is only upheld by
the scheduler issuing no update after the terminal one); what the update
logic itself guarantees is: `started_at`, once set, is never overwritten
(so it is written at most once, at the transition into Processing while
unset), and `completed_at` is written on every update whose status argument
is terminal — in particular at the first transition into a terminal
state. -/
theorem timestamp_write_discipline :
    (∀ (t : TaskProgress) (now : ℚ) (s : Option TaskStatus) (p : Option ℚ)
        (m : Option String) (e : Option String) (x : ℚ),
      t.started_at = some x → (applyUpdate t now s p m e).started_at = some x) ∧
    (∀ (t : TaskProgress) (now : ℚ) (p : Option ℚ) (m : Option String)
        (e : Option String), t.started_at = none →
      (applyUpdate t now (some .processing) p m e).started_at = some now) ∧
    (∀ (t : TaskProgress) (now : ℚ) (v : TaskStatus) (p : Option ℚ)
        (m : Option String) (e : Option String), v = .completed ∨ v = .failed →
      (applyUpdate t now (some v) p m e).completed_at = some now) :=
  ⟨applyUpdate_started_at_some, applyUpdate_started_at_processing,
    applyUpdate_completed_at_terminal⟩

/-- Witness for the amended C5: updating the completed record `doneTask5`
again keeps its original `started_at` and rewrites `completed_at`. -/
theorem timestamp_write_discipline_witness :
    (applyUpdate doneTask5 9 (some .failed) none none none).started_at =
        some 1 ∧
    (applyUpdate doneTask5 9 (some .failed) none none none).completed_at =
        some 9 :=
  ⟨timestamp_write_discipline.1 doneTask5 9 (some .failed) none none none 1
      (by decide),
   timestamp_write_discipline.2.2 doneTask5 9 .failed none none none
      (Or.inr rfl)⟩

/-- Claim C7, counterexample: after the running job "g" is deleted, the
in-flight execution's `set_result` call does not leave the store unchanged:
it writes the job's result into the result map as an orphan entry. -/
theorem set_result_after_delete_counterexample :
    setResult (deleteTask queue7 "g").2 "g" sampleResult ≠
      (deleteTask queue7 "g").2 := by
  decide

/-- Claim C7, amended: deleting a job removes it from `get_task` visibility
immediately; every later record update by the in-flight execution is a
no-op, and the execution's early-return path leaves the store unchanged and
releases its slot normally, so the record is never reintroduced; the
in-flight `set_result` call, however, writes the result into the result
map as an orphan entry, which still does not restore `get_task`
visibility. -/
theorem delete_inflight_behaviour (q : TaskQueue) (task_id : String)
    (h : lookupA q.tasks task_id = none) :
    getTask q task_id = none ∧
    (∀ (now : ℚ) (s : Option TaskStatus) (p : Option ℚ) (m : Option String)
        (e : Option String), updateTask q task_id now s p m e = q) ∧
    (∀ r, getTask (setResult q task_id r) task_id = none) ∧
    (∀ (C : Nat) (now : ℚ) (events : List (String × ℚ))
        (outcome : Except String TranscriptionResult),
      (processTask (SchedState.mk q C) task_id now events outcome).queue = q ∧
      (1 ≤ C →
        (processTask (SchedState.mk q C) task_id now events outcome).avail = C)) := by
  refine ⟨getTask_of_missing q task_id h, ?_, ?_, ?_⟩
  · intro now s p m e
    unfold updateTask
    rw [h]
  · intro r
    apply getTask_of_missing
    rw [setResult_tasks]
    exact h
  · intro C now events outcome
    constructor
    · exact processTask_queue_missing (SchedState.mk q C) task_id now events
        outcome h
    · intro hC
      rw [processTask_avail]
      show C - 1 + 1 = C
      omega

/-- Witness for the amended C7: the store left by deleting the running job
"g" makes the job invisible, and stays invisible after the in-flight
`set_result`. -/
theorem delete_inflight_behaviour_witness :
    getTask (deleteTask queue7 "g").2 "g" = none ∧
    getTask (setResult (deleteTask queue7 "g").2 "g" sampleResult) "g" = none :=
  ⟨(delete_inflight_behaviour (deleteTask queue7 "g").2 "g" (by decide)).1,
   (delete_inflight_behaviour (deleteTask queue7 "g").2 "g"
      (by decide)).2.2.1 sampleResult⟩

/-- Claim C9: the code stores an out-of-range progress value verbatim.  The
`TaskProgress` model declares `progress` with bounds `ge=0.0, le=100.0`, but
pydantic does not validate plain attribute assignment, so
`update_task(progress=150.0)` leaves a record whose progress is 150 —
contradicting the declared invariant that progress stays in [0, 100]. -/
theorem update_progress_unclamped :
    (lookupA (updateTask queue9 "b" 1 none (some 150) none none).tasks
        "b").map TaskProgress.progress = some 150 := by
  decide

/-- Claim C8: `cleanup_old_tasks(max_age)` deletes exactly the records that
are terminal and older than `max_age` (first conjunct: full
characterisation of the surviving records), deletes the stored result of
every deleted record (second conjunct), never deletes a non-terminal
record regardless of age (third conjunct), and with `max_age = 0` removes
every terminal record created strictly before the sweep time (fourth
conjunct). -/
theorem cleanup_old_terminal_spec (q : TaskQueue) (now maxAge : ℚ)
    (hnd : (q.tasks.map fun p => p.1).Nodup) :
    (∀ task_id, lookupA (cleanupOldTasks q now maxAge).tasks task_id =
        match lookupA q.tasks task_id with
        | none => none
        | some t => if isOldTerminal now maxAge t then none else some t) ∧
    (∀ task_id t, lookupA q.tasks task_id = some t →
        isOldTerminal now maxAge t = true →
        lookupA (cleanupOldTasks q now maxAge).task_results task_id = none) ∧
    (∀ task_id t, lookupA q.tasks task_id = some t →
        t.status.isTerminal = false →
        lookupA (cleanupOldTasks q now maxAge).tasks task_id = some t) ∧
    (maxAge = 0 → ∀ task_id t, lookupA q.tasks task_id = some t →
        t.status.isTerminal = true → t.created_at < now →
        lookupA (cleanupOldTasks q now maxAge).tasks task_id = none) := by
  have hmem : ∀ k, k ∈ oldTaskIds q now maxAge ↔
      ∃ t, lookupA q.tasks k = some t ∧ isOldTerminal now maxAge t := by
    intro k
    exact mem_keys_filter (isOldTerminal now maxAge) hnd k
  have htasks : ∀ k, lookupA (cleanupOldTasks q now maxAge).tasks k =
      if decide (k ∉ oldTaskIds q now maxAge) then lookupA q.tasks k
      else none := by
    intro k
    exact lookupA_filterKey q.tasks
      (fun s => decide (s ∉ oldTaskIds q now maxAge)) k
  have hres : ∀ k, lookupA (cleanupOldTasks q now maxAge).task_results k =
      if decide (k ∉ oldTaskIds q now maxAge) then lookupA q.task_results k
      else none := by
    intro k
    exact lookupA_filterKey q.task_results
      (fun s => decide (s ∉ oldTaskIds q now maxAge)) k
  have hchar : ∀ task_id,
      lookupA (cleanupOldTasks q now maxAge).tasks task_id =
        match lookupA q.tasks task_id with
        | none => none
        | some t => if isOldTerminal now maxAge t then none else some t := by
    intro k
    rw [htasks k]
    by_cases hk : k ∈ oldTaskIds q now maxAge
    · obtain ⟨t, hlt, hot⟩ := (hmem k).mp hk
      rw [hlt]
      simp [hk, hot]
    · cases hlt : lookupA q.tasks k with
      | none => simp [hk]
      | some t =>
        have hnot : ¬ isOldTerminal now maxAge t = true := by
          intro hot
          exact hk ((hmem k).mpr ⟨t, hlt, hot⟩)
        simp [hk, hnot]
  refine ⟨hchar, ?_, ?_, ?_⟩
  · intro k t hlt hot
    rw [hres k]
    have hk : k ∈ oldTaskIds q now maxAge := (hmem k).mpr ⟨t, hlt, hot⟩
    simp [hk]
  · intro k t hlt hterm
    rw [hchar k, hlt]
    have hfalse : isOldTerminal now maxAge t = false := by
      unfold isOldTerminal
      rw [hterm, Bool.and_false]
    simp [hfalse]
  · intro hma k t hlt hterm hage
    rw [hchar k, hlt]
    have hot : isOldTerminal now maxAge t = true := by
      unfold isOldTerminal
      rw [hterm, hma, Bool.and_true]
      simp only [decide_eq_true_eq]
      exact div_pos (sub_pos.mpr hage) (by norm_num)
    simp [hot]

/-- Witness for C8: sweeping the two-record store at time 7200 with
`max_age = 0` removes the terminal record and keeps the pending one. -/
theorem cleanup_old_terminal_spec_witness :
    lookupA (cleanupOldTasks cleanupQueue 7200 0).tasks "old" = none ∧
    lookupA (cleanupOldTasks cleanupQueue 7200 0).tasks "new" =
      some youngPendingTask :=
  ⟨(cleanup_old_terminal_spec cleanupQueue 7200 0 (by decide)).2.2.2 rfl "old"
      oldDoneTask (by decide) (by decide) (by decide),
   (cleanup_old_terminal_spec cleanupQueue 7200 0 (by decide)).2.2.1 "new"
      youngPendingTask (by decide) (by decide)⟩

end WhisperXQueue
